import Mathlib

/-
Verification of the filesystem inspection and classification engine of the
cli-explorer repository (src/main/files.cpp), against its natural-language
specification.

Embedding choices:
* An `fs::path` (std::experimental::filesystem, the library used by the code)
  is embedded as the list of components produced by path iteration: an
  absolute POSIX path "/a/b" iterates as ["/", "a", "b"]; a relative path
  "a/b" as ["a", "b"]; a trailing slash contributes a final "." component;
  repeated separators inside the path collapse.  (Paths beginning with
  exactly two slashes get implementation-defined root-name treatment in the
  library and are outside this model; no claim mentions them.)
* In this library, `parent_path` of a path is the path composed of all
  iteration elements except the last one; in particular the parent of the
  root path "/" is the empty path.
* Results of system calls visible to a single call (stat results, access(2),
  directory enumeration, getenv, getpwuid) are modelled as an explicit state
  record passed to the embedded function.
* `exit(EXIT_FAILURE)` and a thrown filesystem_error are modelled as
  distinct constructors of an `Outcome` type, separate from normal returns.
* Machine integers (uintmax_t sizes, permission bit masks) are modelled as
  `Nat`; no arithmetic in the modelled code can overflow or wrap.
-/

namespace cliex

/-! ## Path model (std::experimental::filesystem on POSIX) -/

/-- Splits a character list on a slash, dropping empty pieces; the accumulator
holds the characters of the current piece in reverse.  This models which
name components path iteration yields. -/
def splitSlashAux : List Char → List Char → List String
  | [], acc => if acc.isEmpty then [] else [String.mk acc.reverse]
  | c :: rest, acc =>
    if c = '/' then
      if acc.isEmpty then splitSlashAux rest []
      else String.mk acc.reverse :: splitSlashAux rest []
    else splitSlashAux rest (c :: acc)

/-- Name components of a character list, splitting on slashes. -/
def splitSlash (l : List Char) : List String := splitSlashAux l []

/-- Components of a POSIX path string as iterated by the filesystem library:
a leading slash yields a first component "/", then the nonempty names in
order, then a final "." if the path ends in a slash after at least one
name. -/
def pathComponents (s : String) : List String :=
  let cs := s.toList
  let names := splitSlash cs
  let root : List String := if cs.head? = some '/' then ["/"] else []
  let trail : List String :=
    if cs.getLast? = some '/' ∧ names ≠ [] then ["."] else []
  root ++ names ++ trail

/-- Native string of a path given by its component list. -/
def pathString (l : List String) : String :=
  match l with
  | [] => ""
  | "/" :: rest => "/" ++ String.intercalate "/" rest
  | l => String.intercalate "/" l

/-- Models `fs::path::parent_path()` of this library: all iteration elements
except the last; the parent of the root path "/" is the empty path. -/
def parentPath (l : List String) : List String := l.dropLast

/-- Models `operator/=` appending one iteration component to a path.  For a
name component this appends it; the root component "/" only ever gets
appended to the empty path, where the result is the root path. -/
def pathAppend (l : List String) (c : String) : List String := l ++ [c]

/-- Models `fs::absolute(p)` against the current working directory `cwd`
(itself an absolute path): a path having a root directory is returned
unchanged, otherwise it is `cwd / p`. -/
def fsAbsolute (cwd : List String) (p : List String) : List String :=
  if p.head? = some "/" then p else cwd ++ p

/-- Loop body of `cliex::resolve` (files.cpp:236-242): "." is skipped, ".."
takes the parent path, an empty component is skipped, and any other
component is appended. -/
def resolveStep (newpath : List String) (component : String) : List String :=
  if component = "." then newpath
  else if component = ".." then parentPath newpath
  else if component ≠ "" then pathAppend newpath component
  else newpath

/-- Models `cliex::resolve` (files.cpp:232-245): folds `resolveStep` over the
components of `fs::absolute(path)`, starting from the empty path. -/
def resolve (cwd : List String) (path : List String) : List String :=
  (fsAbsolute cwd path).foldl resolveStep []

/-- Models `fs::path::filename()`: the last iteration component, or the empty
string for the empty path. -/
def filename (p : List String) : String := p.getLast?.getD ""

/-- Rightmost suffix of a character list starting at a dot, if any. -/
def lastDotSuffix : List Char → Option (List Char)
  | [] => none
  | c :: rest =>
    match lastDotSuffix rest with
    | some s => some s
    | none => if c = '.' then some (c :: rest) else none

/-- Extension of a filename in this library: the substring of the filename
from its rightmost dot (a leading dot counts), and empty for ".", ".." and
dotless names. -/
def extOf (name : String) : String :=
  if name = "." ∨ name = ".." then ""
  else
    match lastDotSuffix name.toList with
    | some s => String.mk s
    | none => ""

/-- Models `fs::path::extension()`: computed from the filename. -/
def extension (p : List String) : String := extOf (filename p)

/-! ## Data model of `cliex::file_info` -/

/-- Mirrors `fs::file_type`. -/
inductive FileType where
  | none
  | not_found
  | regular
  | directory
  | symlink
  | block
  | character
  | fifo
  | socket
  | unknown
deriving DecidableEq, Repr

/-- Mirrors `cliex::symlink_info`. -/
structure symlink_info where
  target : String
deriving DecidableEq, Repr

/-- Mirrors `cliex::dir_info`. -/
structure dir_info where
  has_access : Bool
  subdirsc : Nat
  filesc : Nat
deriving DecidableEq, Repr

/-- Mirrors `cliex::regular_file_info`. -/
structure regular_file_info where
  size : Nat
deriving DecidableEq, Repr

/-- Mirrors the `extra_info` variant of `cliex::file_info`; `monostate` is the
empty alternative used for special files and error states. -/
inductive extra_info_t where
  | monostate
  | symlink (i : symlink_info)
  | dir (i : dir_info)
  | regular (i : regular_file_info)
deriving DecidableEq, Repr

/-- Mirrors `cliex::file_info`. -/
structure file_info where
  name : String
  type_desc : String
  type : FileType
  perms : Nat
  last_write_time : Int
  extra_info : extra_info_t
deriving DecidableEq, Repr

/-- One immediate child seen by `fs::directory_iterator`: `linkType` is its
own (symlink-status) type at listing time, `statType` its type after
following a final symlink, which is what `fs::is_directory` reports. -/
structure ChildEntry where
  linkType : FileType
  statType : FileType
deriving DecidableEq, Repr

/-- System-call results visible to a single `get_file_info` call on one path:
the symlink_status type and permissions of the target, whether
symlink_status itself would throw (metadata unreadable, e.g. EACCES on a
parent), whether lstat(2) succeeds, the modification time it reports, the
raw symlink target, the access(2) verdict used by `has_access`, the
immediate children, and the file size. -/
structure FsState where
  ftype : FileType
  perms : Nat
  statThrows : Bool
  lstatOk : Bool
  mtime : Int
  target : String
  accessOk : Bool
  children : List ChildEntry
  size : Nat
deriving DecidableEq, Repr

/-- Result of one `get_file_info` call: a normal return, a propagated
filesystem_error, or process termination via `exit`. -/
inductive Outcome where
  | ok (fi : file_info)
  | thrown
  | exited (code : Nat)
deriving DecidableEq, Repr

/-- Modelled from the spec: `is_exec` is declared in files.hpp, which is not
among the provided sources; the spec defines `executable` as "whether any of
the owner/group/other execute bits is set". -/
def is_exec (perms : Nat) : Bool := perms &&& 0o111 ≠ 0

/-- Models `cliex::has_access` (files.cpp:205-214): the access(2) system call
on the resolved path, with R_OK (and X_OK for directories), is modelled as
the `accessOk` oracle of the state. -/
def has_access (st : FsState) : Bool := st.accessOk

/-- Models `symlink_last_write_time` (files.cpp:37-50): `none` models the
`exit(EXIT_FAILURE)` taken when lstat(2) fails. -/
def symlink_last_write_time (st : FsState) : Option Int :=
  if st.lstatOk then some st.mtime else none

/-- Descriptive string for non-regular, non-directory, non-symlink types
(the switch in files.cpp:106-131). -/
def special_type_desc : FileType → String
  | FileType.block => "Block Device"
  | FileType.character => "Character Device"
  | FileType.fifo => "Named IPC Pipe"
  | FileType.socket => "Named IPC Socket"
  | FileType.none => "None [ERROR STATE]"
  | FileType.not_found => "Not Found [ERROR STATE]"
  | FileType.unknown => "Unknown [ERROR STATE]"
  | _ => "[ERROR STATE]"

/-- Models `cliex::get_file_info` (files.cpp:52-178) for the path `path`
under syscall results `st` and type-configuration map `types` (an
association list modelling the std::map, keyed by exact filenames and by
extensions with leading dot). -/
def get_file_info (st : FsState) (path : List String)
    (types : List (String × String)) : Outcome :=
  if st.statThrows then Outcome.thrown
  else
    let name := filename path
    let type := st.ftype
    let perms := st.perms
    match symlink_last_write_time st with
    | Option.none => Outcome.exited 1
    | some last_write_time =>
      if type = FileType.symlink then
        Outcome.ok
          { name := name, type_desc := "Symlink", type := type,
            perms := perms, last_write_time := last_write_time,
            extra_info := extra_info_t.symlink { target := st.target } }
      else if type = FileType.directory then
        let acc := has_access st
        let counts :=
          if acc then
            st.children.foldl
              (fun (p : Nat × Nat) c =>
                if c.statType = FileType.directory then (p.1 + 1, p.2)
                else (p.1, p.2 + 1))
              (0, 0)
          else (0, 0)
        Outcome.ok
          { name := name, type_desc := "Directory", type := type,
            perms := perms, last_write_time := last_write_time,
            extra_info := extra_info_t.dir
              { has_access := acc, subdirsc := counts.1, filesc := counts.2 } }
      else if type ≠ FileType.regular then
        Outcome.ok
          { name := name, type_desc := special_type_desc type, type := type,
            perms := perms, last_write_time := last_write_time,
            extra_info := extra_info_t.monostate }
      else
        let size := st.size
        let executable := is_exec perms
        let it_f := types.lookup (filename path)
        let it_e := types.lookup (extension path)
        let type_desc :=
          match it_f, it_e with
          | some d, _ => if executable then d ++ " (Executable)" else d
          | Option.none, some d =>
            if executable then d ++ " (Executable)" else d
          | Option.none, Option.none =>
            if executable then "Executable" else "Unknown Regular File"
        Outcome.ok
          { name := name, type_desc := type_desc, type := type,
            perms := perms, last_write_time := last_write_time,
            extra_info := extra_info_t.regular { size := size } }

/-! ## Directory listing -/

/-- System-call results visible to one `get_dir_contents` call: whether the
argument is a directory, and the filenames yielded by `fs::directory_iterator`
in storage order. -/
structure DirState where
  is_directory : Bool
  childNames : List String
deriving DecidableEq, Repr

/-- Models `cliex::get_root_path` (files.cpp:216-219): on POSIX the root path
of any absolute path is "/". -/
def get_root_path : String := "/"

/-- Models `cliex::get_dir_contents` (files.cpp:180-203).  std::sort with
`operator<` on std::string sorts by ordinal (byte-lexicographic) comparison,
which coincides with the character-lexicographic order used here; it is
embedded as a comparison sort. -/
def get_dir_contents (st : DirState) (dir : String)
    (show_hidden_files include_current_dir : Bool) : List String :=
  if ¬ st.is_directory then []
  else
    let contents := st.childNames.filter
      (fun n => (n.take 1 != ".") || show_hidden_files)
    let contents := List.insertionSort (· ≤ ·) contents
    let contents := if dir ≠ get_root_path then ".." :: contents else contents
    let contents := if include_current_dir then "." :: contents else contents
    contents

/-! ## Home directory discovery -/

/-- Environment visible to one `get_home_dir` call: the result of
`getenv("HOME")` (`none` when the variable is absent), the `pw_dir` field of
`getpwuid(getuid())` (`none` when there is no user-database entry or the
field is a null pointer), and the current working directory (an absolute
path). -/
structure HomeState where
  homeEnv : Option String
  pwDir : Option String
  cwd : List String
deriving DecidableEq, Repr

/-- Result of one `get_home_dir` call.  `crashed` models the process abort
that follows constructing `std::string` from a null `char *` inside this
`noexcept` function (the library throws std::logic_error, which terminates
the process). -/
inductive HomeOutcome where
  | ok (p : List String)
  | crashed
deriving DecidableEq, Repr

/-- Models `cliex::get_home_dir` (files.cpp:221-230).  `fs::absolute` of the
already-absolute current working directory is the directory itself. -/
def get_home_dir (st : HomeState) : HomeOutcome :=
  match st.homeEnv with
  | Option.none => HomeOutcome.crashed
  | some h =>
    if h ≠ "" then HomeOutcome.ok (fsAbsolute st.cwd (pathComponents h))
    else
      match st.pwDir with
      | Option.none => HomeOutcome.crashed
      | some d =>
        if d ≠ "" then HomeOutcome.ok (fsAbsolute st.cwd (pathComponents d))
        else HomeOutcome.ok st.cwd

/-! ## Permission formatting -/

/-- One character of the permission string (the lambda `tmp` in
files.cpp:251-253): the given character when all bits of `test_perms` are
set in `perms`, else a dash. -/
def permChar (perms test_perms : Nat) (c : Char) : Char :=
  if perms &&& test_perms = test_perms then c else '-'

/-- Models `cliex::perms_to_string` (files.cpp:247-268): nine characters, one
per permission bit, in owner/group/other × read/write/execute order. -/
def perms_to_string (perms : Nat) : String :=
  String.mk
    [ permChar perms 0o400 'r', permChar perms 0o200 'w',
      permChar perms 0o100 'x',
      permChar perms 0o40 'r', permChar perms 0o20 'w',
      permChar perms 0o10 'x',
      permChar perms 0o4 'r', permChar perms 0o2 'w',
      permChar perms 0o1 'x' ]

/-! ## Auxiliary predicates used by the theorems -/

/-- Payload/kind agreement for a `file_info`: a symlink carries a symlink
payload, a directory a directory payload, a regular file a size payload, and
every other kind the empty `monostate` alternative. -/
def kindPayloadOk (fi : file_info) : Prop :=
  (fi.type = FileType.symlink → ∃ i, fi.extra_info = extra_info_t.symlink i) ∧
  (fi.type = FileType.directory → ∃ i, fi.extra_info = extra_info_t.dir i) ∧
  (fi.type = FileType.regular → ∃ i, fi.extra_info = extra_info_t.regular i) ∧
  (fi.type ≠ FileType.symlink → fi.type ≠ FileType.directory →
    fi.type ≠ FileType.regular → fi.extra_info = extra_info_t.monostate)

/-- A path component that is kept as-is by `resolveStep`: neither ".", nor
"..", nor empty. -/
def plainComp (c : String) : Prop := c ≠ "." ∧ c ≠ ".." ∧ c ≠ ""

end cliex

namespace cliex

/-! ## Helper lemmas -/

theorem permChar_testBit (p k : Nat) (c : Char) :
    permChar p (2 ^ k) c = if p.testBit k then c else '-' := by
  unfold permChar
  rw [Nat.and_two_pow]
  cases h : p.testBit k
  · simp [h, (Nat.pos_pow_of_pos k (by decide : 0 < 2)).ne]
  · simp [h]

theorem count_foldl (l : List ChildEntry) (a b : Nat) :
    l.foldl
      (fun (p : Nat × Nat) c =>
        if c.statType = FileType.directory then (p.1 + 1, p.2)
        else (p.1, p.2 + 1))
      (a, b) =
    (a + (l.map ChildEntry.statType).count FileType.directory,
     b + (l.map ChildEntry.statType).countP
       (fun t => !(t == FileType.directory))) := by
  induction l generalizing a b with
  | nil => simp
  | cons c rest ih =>
    rw [List.foldl_cons]
    by_cases h : c.statType = FileType.directory
    · rw [if_pos h, ih, List.map_cons, h, List.count_cons_self,
        List.countP_cons_of_neg _ _ (by simp)]
      simp [Prod.ext_iff]
      omega
    · rw [if_neg h, ih, List.map_cons,
        List.count_cons_of_ne (fun hh => h hh.symm),
        List.countP_cons_of_pos _ _ (by simp [h])]
      simp [Prod.ext_iff]
      omega

theorem fsAbsolute_append (cwd p : List String) (c : String) (h : p ≠ []) :
    fsAbsolute cwd (p ++ [c]) = fsAbsolute cwd p ++ [c] := by
  cases p with
  | nil => exact absurd rfl h
  | cons a as =>
    by_cases ha : a = "/" <;>
      simp [fsAbsolute, ha, List.cons_append]

theorem resolve_append (cwd p : List String) (c : String) (h : c ≠ "/") :
    resolve cwd (p ++ [c]) = resolveStep (resolve cwd p) c := by
  cases p with
  | nil =>
    have hh : fsAbsolute cwd [c] = cwd ++ [c] := by
      unfold fsAbsolute
      rw [if_neg]
      simp [h]
    unfold resolve
    rw [List.nil_append, hh, List.foldl_append]
    have he : fsAbsolute cwd [] = cwd := by
      unfold fsAbsolute
      simp
    rw [he]
    rfl
  | cons a as =>
    unfold resolve
    rw [fsAbsolute_append cwd (a :: as) c (by simp), List.foldl_append]
    rfl

theorem resolve_foldl_mem (l : List String) :
    ∀ acc : List String, (∀ c ∈ acc, plainComp c) →
      ∀ c ∈ List.foldl resolveStep acc l, plainComp c := by
  induction l with
  | nil => intro acc h; simpa using h
  | cons a rest ih =>
    intro acc h
    rw [List.foldl_cons]
    apply ih
    intro c hc
    unfold resolveStep at hc
    by_cases e1 : a = "."
    · rw [if_pos e1] at hc
      exact h c hc
    · rw [if_neg e1] at hc
      by_cases e2 : a = ".."
      · rw [if_pos e2] at hc
        exact h c ((List.dropLast_sublist acc).subset hc)
      · rw [if_neg e2] at hc
        by_cases e3 : a = ""
        · rw [if_neg (not_not_intro e3)] at hc
          exact h c hc
        · rw [if_pos e3] at hc
          unfold pathAppend at hc
          rcases List.mem_append.1 hc with hm | hm
          · exact h c hm
          · rw [List.mem_singleton.1 hm]
            exact ⟨e1, e2, e3⟩

theorem resolve_foldl_id (l : List String) :
    ∀ acc : List String, (∀ c ∈ l, plainComp c) →
      List.foldl resolveStep acc l = acc ++ l := by
  induction l with
  | nil => intro acc _; simp
  | cons a rest ih =>
    intro acc h
    have ha := h a (List.mem_cons_self a rest)
    have hstep : resolveStep acc a = acc ++ [a] := by
      unfold resolveStep pathAppend
      rw [if_neg ha.1, if_neg ha.2.1, if_pos ha.2.2]
    rw [List.foldl_cons, hstep, ih _ (fun c hc => h c (List.mem_cons_of_mem _ hc))]
    simp

end cliex

namespace cliex

/-! ## Claim theorems -/

/-- C9: for every permission value, `perms_to_string` returns a string of
exactly 9 characters drawn from {r, w, x, -}, one character per bit in the
fixed order owner-read, owner-write, owner-exec, group-read, group-write,
group-exec, other-read, other-write, other-exec (bits 8 down to 0 of the
POSIX mode), with the letter when the bit is set and a dash otherwise. -/
theorem C9_perms_string (perms : Nat) :
    (perms_to_string perms).length = 9 ∧
    (∀ c ∈ (perms_to_string perms).toList,
      c = 'r' ∨ c = 'w' ∨ c = 'x' ∨ c = '-') ∧
    (perms_to_string perms).toList =
      [ (if perms.testBit 8 then 'r' else '-'),
        (if perms.testBit 7 then 'w' else '-'),
        (if perms.testBit 6 then 'x' else '-'),
        (if perms.testBit 5 then 'r' else '-'),
        (if perms.testBit 4 then 'w' else '-'),
        (if perms.testBit 3 then 'x' else '-'),
        (if perms.testBit 2 then 'r' else '-'),
        (if perms.testBit 1 then 'w' else '-'),
        (if perms.testBit 0 then 'x' else '-') ] := by
  have e : perms_to_string perms = String.mk
      [ permChar perms (2 ^ 8) 'r', permChar perms (2 ^ 7) 'w',
        permChar perms (2 ^ 6) 'x', permChar perms (2 ^ 5) 'r',
        permChar perms (2 ^ 4) 'w', permChar perms (2 ^ 3) 'x',
        permChar perms (2 ^ 2) 'r', permChar perms (2 ^ 1) 'w',
        permChar perms (2 ^ 0) 'x' ] := rfl
  have e2 : (perms_to_string perms).toList =
      [ (if perms.testBit 8 then 'r' else '-'),
        (if perms.testBit 7 then 'w' else '-'),
        (if perms.testBit 6 then 'x' else '-'),
        (if perms.testBit 5 then 'r' else '-'),
        (if perms.testBit 4 then 'w' else '-'),
        (if perms.testBit 3 then 'x' else '-'),
        (if perms.testBit 2 then 'r' else '-'),
        (if perms.testBit 1 then 'w' else '-'),
        (if perms.testBit 0 then 'x' else '-') ] := by
    rw [e]
    show [permChar perms (2 ^ 8) 'r', permChar perms (2 ^ 7) 'w',
      permChar perms (2 ^ 6) 'x', permChar perms (2 ^ 5) 'r',
      permChar perms (2 ^ 4) 'w', permChar perms (2 ^ 3) 'x',
      permChar perms (2 ^ 2) 'r', permChar perms (2 ^ 1) 'w',
      permChar perms (2 ^ 0) 'x'] = _
    simp only [permChar_testBit]
  refine ⟨by rw [e]; rfl, ?_, e2⟩
  rw [e2]
  intro c hc
  simp only [List.mem_cons, List.not_mem_nil, or_false] at hc
  rcases hc with rfl | rfl | rfl | rfl | rfl | rfl | rfl | rfl | rfl <;>
    split <;> simp

/-- C9 witness: the theorem applied at the concrete permission value 0o754. -/
theorem C9_perms_string_witness : (perms_to_string 0o754).length = 9 :=
  (C9_perms_string 0o754).1

/-- C3: the claim states `home_dir` is total even when the environment
variable is absent.  The code constructs a `std::string` from the null
pointer returned by `getenv("HOME")`, which aborts the process; this theorem
evaluates the model at that failing input. -/
theorem C3_home_unset_crashes :
    get_home_dir
      { homeEnv := Option.none, pwDir := some "/root", cwd := ["/"] } =
    HomeOutcome.crashed := rfl

/-- C4: the claim states that unreadable target metadata surfaces as an
explicit error to the caller.  For a nonexistent path, `symlink_status`
reports `not_found` without throwing, and the subsequent lstat(2) failure
makes `symlink_last_write_time` call `exit(EXIT_FAILURE)`: the call
terminates the process instead of surfacing an error, and the `not_found`
branch of `get_file_info` is unreachable. -/
theorem C4_lstat_failure_exits :
    get_file_info
      { ftype := FileType.not_found, perms := 0, statThrows := false,
        lstatOk := false, mtime := 0, target := "", accessOk := false,
        children := [], size := 0 }
      ["/", "nonexistent"] [] = Outcome.exited 1 := rfl

/-- C6: classifying a directory whose contents the caller cannot read
returns normally (no thrown error, no exit) with kind Directory,
has_access = false and both counts zero. -/
theorem C6_unreadable_directory (st : FsState) (p : List String)
    (cfg : List (String × String))
    (h1 : st.statThrows = false) (h2 : st.lstatOk = true)
    (h3 : st.ftype = FileType.directory) (h4 : st.accessOk = false) :
    get_file_info st p cfg = Outcome.ok
      { name := filename p, type_desc := "Directory",
        type := FileType.directory, perms := st.perms,
        last_write_time := st.mtime,
        extra_info := extra_info_t.dir
          { has_access := false, subdirsc := 0, filesc := 0 } } := by
  simp [get_file_info, symlink_last_write_time, has_access, h1, h2, h3, h4]

/-- C6 witness: a concrete inaccessible directory with one child that could
not be enumerated. -/
theorem C6_unreadable_directory_witness :
    get_file_info
      { ftype := FileType.directory, perms := 0o700, statThrows := false,
        lstatOk := true, mtime := 5, target := "", accessOk := false,
        children := [{ linkType := FileType.regular,
                       statType := FileType.regular }], size := 0 }
      ["/", "locked"] [] = Outcome.ok
      { name := "locked", type_desc := "Directory",
        type := FileType.directory, perms := 0o700, last_write_time := 5,
        extra_info := extra_info_t.dir
          { has_access := false, subdirsc := 0, filesc := 0 } } :=
  C6_unreadable_directory
    { ftype := FileType.directory, perms := 0o700, statThrows := false,
      lstatOk := true, mtime := 5, target := "", accessOk := false,
      children := [{ linkType := FileType.regular,
                     statType := FileType.regular }], size := 0 }
    ["/", "locked"] [] rfl rfl rfl rfl

/-- C5 counterexample: a directory with a single child that is a symlink
whose target is a directory.  The claim predicts the child is counted by its
apparent type (a non-directory, so subdir_count = 0, file_count = 1), but
`fs::is_directory` follows symlinks, so the code counts it as a
subdirectory: subdir_count = 1, file_count = 0. -/
theorem C5_counterexample :
    get_file_info
      { ftype := FileType.directory, perms := 0o755, statThrows := false,
        lstatOk := true, mtime := 0, target := "", accessOk := true,
        children := [{ linkType := FileType.symlink,
                       statType := FileType.directory }], size := 0 }
      ["/", "d"] [] = Outcome.ok
      { name := "d", type_desc := "Directory", type := FileType.directory,
        perms := 0o755, last_write_time := 0,
        extra_info := extra_info_t.dir
          { has_access := true, subdirsc := 1, filesc := 0 } } ∧
    extra_info_t.dir { has_access := true, subdirsc := 1, filesc := 0 } ≠
      extra_info_t.dir { has_access := true, subdirsc := 0, filesc := 1 } :=
  ⟨rfl, by decide⟩

/-- C5 amended: when an accessible directory's children are enumerated, each
child is counted by the type of its resolved target (`fs::is_directory`
follows symlinks), not by its apparent type at listing time: subdir_count is
the number of immediate children whose followed status is `directory` and
file_count is the number of all other immediate children — in particular the
counts are a function of the followed statuses alone, and enumeration never
recurses below the immediate children. -/
theorem C5_amended (st : FsState) (p : List String)
    (cfg : List (String × String))
    (h1 : st.statThrows = false) (h2 : st.lstatOk = true)
    (h3 : st.ftype = FileType.directory) (h4 : st.accessOk = true) :
    get_file_info st p cfg = Outcome.ok
      { name := filename p, type_desc := "Directory",
        type := FileType.directory, perms := st.perms,
        last_write_time := st.mtime,
        extra_info := extra_info_t.dir
          { has_access := true,
            subdirsc := (st.children.map ChildEntry.statType).count
              FileType.directory,
            filesc := (st.children.map ChildEntry.statType).countP
              (fun t => !(t == FileType.directory)) } } := by
  have hc := count_foldl st.children 0 0
  simp only [Nat.zero_add] at hc
  simp [get_file_info, symlink_last_write_time, has_access, h1, h2, h3, h4, hc,
    -Prod.mk_zero_zero, -List.countP_map]

/-- C5 amended witness: the counterexample directory, now with the amended
counts: the symlink-to-directory child lands in subdir_count. -/
theorem C5_amended_witness :
    get_file_info
      { ftype := FileType.directory, perms := 0o755, statThrows := false,
        lstatOk := true, mtime := 0, target := "", accessOk := true,
        children := [{ linkType := FileType.symlink,
                       statType := FileType.directory }], size := 0 }
      ["/", "d"] [] = Outcome.ok
      { name := "d", type_desc := "Directory", type := FileType.directory,
        perms := 0o755, last_write_time := 0,
        extra_info := extra_info_t.dir
          { has_access := true, subdirsc := 1, filesc := 0 } } :=
  C5_amended
    { ftype := FileType.directory, perms := 0o755, statThrows := false,
      lstatOk := true, mtime := 0, target := "", accessOk := true,
      children := [{ linkType := FileType.symlink,
                     statType := FileType.directory }], size := 0 }
    ["/", "d"] [] rfl rfl rfl rfl

end cliex

namespace cliex

/-- C1: for every regular file, the type description is obtained by looking
up the configuration by exact filename first, then by extension (the
filename match wins when both rules exist); when a rule matches and any
execute bit is set the description gets the " (Executable)" suffix; with no
matching rule the description is "Executable" when an execute bit is set and
"Unknown Regular File" otherwise. -/
theorem C1_regular_classification (st : FsState) (p : List String)
    (cfg : List (String × String))
    (h1 : st.statThrows = false) (h2 : st.lstatOk = true)
    (h3 : st.ftype = FileType.regular) :
    get_file_info st p cfg = Outcome.ok
      { name := filename p,
        type_desc :=
          match (cfg.lookup (filename p)).or (cfg.lookup (extension p)) with
          | some d => if is_exec st.perms then d ++ " (Executable)" else d
          | Option.none =>
            if is_exec st.perms then "Executable"
            else "Unknown Regular File",
        type := FileType.regular, perms := st.perms,
        last_write_time := st.mtime,
        extra_info := extra_info_t.regular { size := st.size } } := by
  cases hf : cfg.lookup (filename p) <;> cases he : cfg.lookup (extension p) <;>
    simp [get_file_info, symlink_last_write_time, h1, h2, h3, hf, he]

/-- C1 witness (the claim's run.sh example): a regular file "run.sh" with
owner-exec bit set, under the extension rule .sh = "Shell Script", is
described as "Shell Script (Executable)". -/
theorem C1_regular_classification_witness :
    get_file_info
      { ftype := FileType.regular, perms := 0o744, statThrows := false,
        lstatOk := true, mtime := 0, target := "", accessOk := false,
        children := [], size := 100 }
      ["/", "run.sh"] [(".sh", "Shell Script")] = Outcome.ok
      { name := "run.sh", type_desc := "Shell Script (Executable)",
        type := FileType.regular, perms := 0o744, last_write_time := 0,
        extra_info := extra_info_t.regular { size := 100 } } :=
  C1_regular_classification
    { ftype := FileType.regular, perms := 0o744, statThrows := false,
      lstatOk := true, mtime := 0, target := "", accessOk := false,
      children := [], size := 100 }
    ["/", "run.sh"] [(".sh", "Shell Script")] rfl rfl rfl

/-- C8: every `file_info` returned normally by `get_file_info` carries
exactly the payload matching its kind tag: a symlink payload for symlinks, a
directory payload for directories, a size payload for regular files, and the
empty alternative for every other kind. -/
theorem C8_payload_invariant (st : FsState) (p : List String)
    (cfg : List (String × String)) (fi : file_info)
    (h : get_file_info st p cfg = Outcome.ok fi) : kindPayloadOk fi := by
  by_cases hb : st.statThrows
  · simp [get_file_info, hb] at h
  · by_cases hl : st.lstatOk
    · simp only [get_file_info, symlink_last_write_time, hb, hl,
        Bool.false_eq_true, if_false, if_true] at h
      by_cases t1 : st.ftype = FileType.symlink
      · rw [if_pos t1, Outcome.ok.injEq] at h
        subst h
        simp [kindPayloadOk, t1]
      · rw [if_neg t1] at h
        by_cases t2 : st.ftype = FileType.directory
        · rw [if_pos t2, Outcome.ok.injEq] at h
          subst h
          simp [kindPayloadOk, t2]
        · rw [if_neg t2] at h
          by_cases t3 : st.ftype = FileType.regular
          · rw [if_neg (not_not_intro t3), Outcome.ok.injEq] at h
            subst h
            simp [kindPayloadOk, t3]
          · rw [if_pos t3, Outcome.ok.injEq] at h
            subst h
            simp [kindPayloadOk, t1, t2, t3]
    · simp [get_file_info, symlink_last_write_time, hb, hl] at h

/-- C8 witness: the invariant holds for a concrete symlink classification. -/
theorem C8_payload_invariant_witness :
    kindPayloadOk
      { name := "x", type_desc := "Symlink", type := FileType.symlink,
        perms := 0o777, last_write_time := 3,
        extra_info := extra_info_t.symlink { target := "t" } } :=
  C8_payload_invariant
    { ftype := FileType.symlink, perms := 0o777, statThrows := false,
      lstatOk := true, mtime := 3, target := "t", accessOk := false,
      children := [], size := 0 }
    ["/", "x"] [] _ rfl

end cliex

namespace cliex

/-- C2 counterexample: the claim says the root is a fixed point for "..", so
resolve("/..") would be "/".  In this library the parent path of "/" is the
empty path, so the code yields the empty path instead. -/
theorem C2_counterexample :
    pathString (resolve ["/"] (pathComponents "/..")) ≠ "/" := by decide

/-- C2 amended: `resolve` makes its input absolute against the current
working directory if relative and then processes components left to right:
"." components and empty components are dropped, ".." removes the previously
retained component — at the root this removes the root component itself,
yielding the empty path (not a no-op) — and every other component is
appended.  Hence resolve("/a/b/../c") = "/a/c", but resolve("/..") is the
empty path, not "/". -/
theorem C2_amended (cwd p q : List String) (c : String)
    (h1 : c ≠ ".") (h2 : c ≠ "..") (h3 : c ≠ "") (h4 : c ≠ "/")
    (h5 : q.head? ≠ some "/") :
    resolve cwd (p ++ ["."]) = resolve cwd p ∧
    resolve cwd (p ++ [""]) = resolve cwd p ∧
    resolve cwd (p ++ [".."]) = parentPath (resolve cwd p) ∧
    resolve cwd (p ++ [c]) = resolve cwd p ++ [c] ∧
    resolve cwd q = (cwd ++ q).foldl resolveStep [] ∧
    resolve cwd (pathComponents "/a/b/../c") = pathComponents "/a/c" ∧
    resolve cwd (pathComponents "/..") = [] := by
  refine ⟨?_, ?_, ?_, ?_, ?_, rfl, rfl⟩
  · rw [resolve_append cwd p "." (by decide)]
    rfl
  · rw [resolve_append cwd p "" (by decide)]
    rfl
  · rw [resolve_append cwd p ".." (by decide)]
    unfold resolveStep
    rw [if_neg (by decide : ¬(".." : String) = "."), if_pos rfl]
  · rw [resolve_append cwd p c h4]
    unfold resolveStep pathAppend
    rw [if_neg h1, if_neg h2, if_pos h3]
  · unfold resolve fsAbsolute
    rw [if_neg h5]

/-- C2 amended witness: the amended theorem applied at concrete inputs. -/
theorem C2_amended_witness :
    resolve ["/"] (["/", "a"] ++ ["b"]) = resolve ["/"] ["/", "a"] ++ ["b"] :=
  (C2_amended ["/"] ["/", "a"] ["q"] "b" (by decide) (by decide) (by decide)
    (by decide) (by decide)).2.2.2.1

/-- C10 counterexample: the claim says resolve is idempotent on all inputs.
With the current directory at the root, resolve("/..") is the empty path,
and resolving the empty path again yields the current directory "/", so
idempotence fails at p = "/..". -/
theorem C10_counterexample :
    resolve ["/"] (resolve ["/"] (pathComponents "/..")) ≠
      resolve ["/"] (pathComponents "/..") := by decide

/-- C10 amended: the output of `resolve` never contains ".", ".." or empty
components, and `resolve` is idempotent on every input whose resolution
retains the root component — equivalently, whenever the result is still an
absolute path.  Idempotence can only fail for inputs whose ".." components
strip the root itself (such as "/.."), where the result is empty or
relative and a second resolution makes it absolute against the current
working directory again. -/
theorem C10_amended (cwd p : List String) :
    (∀ c ∈ resolve cwd p, c ≠ "." ∧ c ≠ ".." ∧ c ≠ "") ∧
    ((resolve cwd p).head? = some "/" →
      resolve cwd (resolve cwd p) = resolve cwd p) := by
  have hplain : ∀ c ∈ resolve cwd p, plainComp c :=
    resolve_foldl_mem (fsAbsolute cwd p) [] (by intro c hc; cases hc)
  refine ⟨fun c hc => hplain c hc, fun habs => ?_⟩
  show (fsAbsolute cwd (resolve cwd p)).foldl resolveStep [] = resolve cwd p
  unfold fsAbsolute
  rw [if_pos habs, resolve_foldl_id (resolve cwd p) [] hplain,
    List.nil_append]

/-- C10 amended witness: idempotence at the concrete absolute input "/a". -/
theorem C10_amended_witness :
    resolve ["/"] (resolve ["/"] ["/", "a"]) = resolve ["/"] ["/", "a"] :=
  (C10_amended ["/"] ["/", "a"]).2 (by decide)

/-- C7: for a directory, the listing contains exactly the immediate child
names that survive the hidden filter (names beginning with "." are excluded
unless show_hidden is set), sorted by ordinal string comparison; only after
sorting, ".." is prepended (the directory differing from the filesystem
root) and then "." (include_current_dir being true).  On a non-root
directory containing ["b", ".hidden", "a"], listing with show_hidden = false
and include_current_dir = true yields [".", "..", "a", "b"]. -/
theorem C7_dir_listing (st : DirState) (dir : String) (sh : Bool)
    (h1 : st.is_directory = true) (h2 : dir ≠ get_root_path) :
    get_dir_contents st dir sh true =
      "." :: ".." :: List.insertionSort (· ≤ ·)
        (st.childNames.filter (fun n => (n.take 1 != ".") || sh)) ∧
    List.Sorted (· ≤ ·) (List.insertionSort (· ≤ ·)
      (st.childNames.filter (fun n => (n.take 1 != ".") || sh))) ∧
    (List.insertionSort (· ≤ ·)
      (st.childNames.filter (fun n => (n.take 1 != ".") || sh))).Perm
      (st.childNames.filter (fun n => (n.take 1 != ".") || sh)) ∧
    (∀ n, n ∈ st.childNames.filter (fun m => (m.take 1 != ".") || sh) ↔
      n ∈ st.childNames ∧ (n.take 1 ≠ "." ∨ sh = true)) ∧
    get_dir_contents
      { is_directory := true, childNames := ["b", ".hidden", "a"] }
      "/d" false true = [".", "..", "a", "b"] := by
  refine ⟨?_, List.sorted_insertionSort _ _, List.perm_insertionSort _ _,
    ?_, ?_⟩
  · simp [get_dir_contents, h1, h2]
  · intro n
    simp [List.mem_filter, and_comm]
  · simp [get_dir_contents, get_root_path, List.insertionSort,
      List.orderedInsert]
    decide

/-- C7 witness: the theorem applied to a concrete non-root directory with a
single visible child. -/
theorem C7_dir_listing_witness :
    get_dir_contents { is_directory := true, childNames := ["x"] }
      "/d" false true =
    "." :: ".." :: List.insertionSort (· ≤ ·)
      ((["x"]).filter (fun n => (n.take 1 != ".") || false)) :=
  (C7_dir_listing { is_directory := true, childNames := ["x"] } "/d" false
    rfl (by decide)).1

end cliex
